import Mathlib

/-!
Shallow embedding of the interaction-assess annotation backend
(`src/server.js`, `src/database.js`, `src/google-sheets.js`, and the
spreadsheet-mirroring server variant) together with theorems that settle
the specification claims about it.

Modelling conventions:
* The `assignments` table is a list of `(participant_id, slice_id)` pairs in
  insertion order; its `PRIMARY KEY (participant_id, slice_id)` makes an
  insert of an existing pair fail with a uniqueness violation.
* The `slices` table is a list of `SliceRec` records; `focus_turns` and
  `hybrid_predictions` are stored serialized (`Option String`, `none` = SQL
  NULL).
* `JSON.parse` is an external runtime builtin; the embedding takes it as a
  parameter `parse : String → Option JsonVal` (`none` = the parse throws).
  Theorems that need its behaviour on the literals `"[]"` / `"\x7b\x7d"`
  assume it as a hypothesis; concrete witnesses use `stubParse`, a finite
  restriction of the real behaviour.
* Any JavaScript exception reaching the route handler's `catch` produces an
  HTTP 500; the embedding funnels all of these into `Except.error`.
-/

namespace InteractionAssess

/-- Errors that abort a request and reach the route handler's catch block,
producing an HTTP 500 response. -/
inductive Err where
  /-- the SQL engine rejects a malformed statement, e.g. `... WHERE id IN ()` -/
  | sqlSyntax
  /-- violation of `PRIMARY KEY (participant_id, slice_id)` on insert -/
  | uniqueness
  /-- a JavaScript TypeError, e.g. reading a field of `undefined` -/
  | typeError
  /-- `JSON.parse` threw on a malformed stored payload -/
  | jsonError
  /-- the storage layer is unavailable -/
  | storage
deriving DecidableEq, Repr

/-- Structured JSON values, the codomain of the modelled `JSON.parse`. -/
inductive JsonVal where
  | arr : List String → JsonVal
  | obj : List (String × String) → JsonVal
  | str : String → JsonVal
deriving DecidableEq, Repr

/-- Finite restriction of the JavaScript `JSON.parse` builtin used by
concrete witnesses: it parses the two default literals the server supplies
(`'[]'` and `'\x7b\x7d'`) and rejects everything else. -/
def stubParse : String → Option JsonVal :=
  fun s =>
    if s = "[]" then some (JsonVal.arr [])
    else if s = "\x7b\x7d" then some (JsonVal.obj [])
    else none

/-- Row of the `slices` table (`CREATE TABLE slices` in `src/database.js`):
`focus_turns` and `hybrid_predictions` hold serialized JSON text, `none`
standing for SQL NULL. -/
structure SliceRec where
  id : String
  conversation_id : String
  context : Option String
  focus_turns : Option String
  hybrid_predictions : Option String
deriving DecidableEq, Repr

/-- A hydrated slice as returned by `/api/participant/:id/slices`: the two
serialized fields decoded to structured values. -/
structure HydratedSlice where
  id : String
  conversation_id : String
  context : Option String
  focus_turns : JsonVal
  hybrid_predictions : JsonVal
deriving DecidableEq, Repr

/-- Successful JSON body of `/api/participant/:id/slices`. -/
structure SlicesResponse where
  participant_id : String
  slices : List HydratedSlice
  total : Nat
deriving DecidableEq, Repr

/-- Number of assignments per slice: `getSliceCounts` in `src/server.js`
computes `SELECT slice_id, COUNT(*) ... GROUP BY slice_id` and the endpoint
then fills in `0` for slices never assigned, so the count of slice `s` is
the number of ledger rows whose `slice_id` is `s`. -/
def sliceCount (rows : List (String × String)) (s : String) : Nat :=
  (rows.filter (fun r => r.2 = s)).length

/-- The `SLICES_PER_PARTICIPANT` constant of the slices endpoint
(`src/server.js` line 74), the batch size. -/
def SLICES_PER_PARTICIPANT : Nat := 15

/-- `sortedSlices.slice(0, SLICES_PER_PARTICIPANT)` (`src/server.js` line
115): the batch is the first `SLICES_PER_PARTICIPANT` entries of the ranked
slice-id list. -/
def selectBatch (order : List String) : List String :=
  order.take SLICES_PER_PARTICIPANT

/-- The possible outcomes of `allSliceIds.sort(comparator)` with the
comparator of `src/server.js` lines 105-112: deterministic ascending
comparison on assignment counts, fresh randomness on ties.  Any output is a
permutation of the catalog that is pairwise non-decreasing in
`sliceCount`; which tied order comes out is nondeterministic, so the
endpoint is parameterized by the chosen list. -/
def SortedByCounts (rows : List (String × String)) (order : List String) : Prop :=
  order.Pairwise (fun a b => sliceCount rows a ≤ sliceCount rows b)

/-- One `INSERT INTO assignments (participant_id, slice_id) VALUES (?, ?)`:
fails with a uniqueness violation when the pair already exists (the table's
primary key), otherwise appends the row. -/
def insertAssignment (rows : List (String × String)) (p s : String) :
    Except Err (List (String × String)) :=
  if (p, s) ∈ rows then .error .uniqueness else .ok (rows ++ [(p, s)])

/-- The insert loop of `src/server.js` lines 117-123: one awaited insert per
slice id, no transaction.  The returned list is the ledger after the loop —
rows inserted before a failure stay committed — and the second component is
the error that aborted the loop, if any. -/
def insertBatchRun (rows : List (String × String)) (p : String) :
    List String → List (String × String) × Option Err
  | [] => (rows, none)
  | s :: rest =>
    match insertAssignment rows p s with
    | .error e => (rows, some e)
    | .ok rows' => insertBatchRun rows' p rest

/-- JavaScript truthiness of `slice.focus_turns || dflt`: SQL NULL
(`undefined` in the row object) and the empty string are falsy, every other
string stands for itself. -/
def falsyDefault (v : Option String) (dflt : String) : String :=
  match v with
  | none => dflt
  | some s => if s = "" then dflt else s

/-- One step of the hydration map of `src/server.js` lines 134-141: look the
id up in the fetched slice rows (`sliceRows.find`); when absent, the code
dereferences `undefined` and throws a TypeError; otherwise it decodes
`JSON.parse(slice.focus_turns || '[]')` and
`JSON.parse(slice.hybrid_predictions || '\x7b\x7d')`, whose exceptions also
propagate. -/
def hydrateSlice (parse : String → Option JsonVal) (store : List SliceRec)
    (id : String) : Except Err HydratedSlice :=
  match store.find? (fun r => r.id = id) with
  | none => .error .typeError
  | some r =>
    match parse (falsyDefault r.focus_turns "[]") with
    | none => .error .jsonError
    | some ft =>
      match parse (falsyDefault r.hybrid_predictions "\x7b\x7d") with
      | none => .error .jsonError
      | some hp => .ok ⟨r.id, r.conversation_id, r.context, ft, hp⟩

/-- The whole `assignedSliceIds.map(...)` hydration: the first exception
aborts the map and the request. -/
def hydrateAll (parse : String → Option JsonVal) (store : List SliceRec) :
    List String → Except Err (List HydratedSlice)
  | [] => .ok []
  | id :: rest =>
    match hydrateSlice parse store id with
    | .error e => .error e
    | .ok h =>
      match hydrateAll parse store rest with
      | .error e => .error e
      | .ok hs => .ok (h :: hs)

/-- Tail of the slices endpoint (`src/server.js` lines 126-147): build the
`IN (...)` placeholder list — empty `assignedSliceIds` yields the malformed
statement `SELECT * FROM slices WHERE id IN ()`, which the SQL engine
rejects — then hydrate each id in order and answer with the slice records,
the participant id and the total. -/
def finishRequest (parse : String → Option JsonVal) (store : List SliceRec)
    (p : String) (ids : List String) : Except Err SlicesResponse :=
  if ids.isEmpty then .error .sqlSyntax
  else
    match hydrateAll parse store ids with
    | .error e => .error e
    | .ok hs => .ok ⟨p, hs, hs.length⟩

/-- `GET /api/participant/:id/slices` (`src/server.js` lines 72-152).
Reads the participant's existing assignment rows; when some exist it
returns exactly those slice ids, otherwise it ranks the catalog by
ascending assignment count (`order`, the nondeterministically tie-broken
sorted catalog), takes the first `SLICES_PER_PARTICIPANT`, and inserts the
pairs one by one.  The result pairs the ledger after the request with the
HTTP outcome (`Except.error` = the catch block's 500). -/
def getAssignmentForParticipant (parse : String → Option JsonVal)
    (store : List SliceRec) (rows : List (String × String))
    (p : String) (order : List String) :
    List (String × String) × Except Err SlicesResponse :=
  let existing := (rows.filter (fun r => r.1 = p)).map (fun r => r.2)
  if existing.isEmpty then
    let ids := selectBatch order
    let run := insertBatchRun rows p ids
    match run.2 with
    | some e => (run.1, .error e)
    | none => (run.1, finishRequest parse store p ids)
  else
    (rows, finishRequest parse store p existing)

/-- Body of a `POST /api/annotations` request after `body-parser`: `none`
models an absent field. -/
structure AnnBody where
  participant_id : Option String
  slice_id : Option String
  interaction_types : Option (List String)
  curiosity_types : Option (List String)
  routing_validation : Option JsonVal
  annotation_time_seconds : Option Int
deriving DecidableEq, Repr

/-- JavaScript truthiness of an optional string: `undefined` and `""` are
falsy. -/
def truthyStr : Option String → Bool
  | none => false
  | some s => !(s = "")

/-- JavaScript truthiness of an optional array: `undefined` is falsy and
every array — the empty one included — is truthy. -/
def truthyList : Option (List String) → Bool
  | none => false
  | some _ => true

/-- Row of the `annotations` table; the serialized columns hold the
`JSON.stringify` output and `submitted_at` the server-assigned insert
timestamp. -/
structure AnnRow where
  id : Nat
  participant_id : String
  slice_id : String
  interaction_types : String
  curiosity_types : String
  routing_validation : String
  annotation_time_seconds : Int
  submitted_at : Nat
deriving DecidableEq, Repr

/-- HTTP outcome of `POST /api/annotations` in `src/server.js`:
`ok` = the `success: true` JSON, `clientError` = status 400,
`serverError` = status 500. -/
inductive PostResult where
  | ok
  | clientError
  | serverError
deriving DecidableEq, Repr

/-- `POST /api/annotations` (`src/server.js` lines 155-193).  `sL` and `sJ`
stand for the external `JSON.stringify` builtin on arrays and objects,
`dbOk` for whether the single `INSERT INTO annotations` succeeds, `now` for
the server clock.  The guard is
`!participant_id || !slice_id || !interaction_types`; it answers 400 before
touching storage, and an empty `interaction_types` array is truthy so it
passes.  On insert failure the catch answers 500 with no row written. -/
def postAnnotation (sL : List String → String) (sJ : JsonVal → String)
    (dbOk : Bool) (now : Nat) (log : List AnnRow) (b : AnnBody) :
    List AnnRow × PostResult :=
  if !truthyStr b.participant_id || !truthyStr b.slice_id ||
      !truthyList b.interaction_types then
    (log, .clientError)
  else
    if dbOk then
      (log ++ [{ id := log.length + 1
                 participant_id := b.participant_id.getD ""
                 slice_id := b.slice_id.getD ""
                 interaction_types := sL (b.interaction_types.getD [])
                 curiosity_types := sL (b.curiosity_types.getD [])
                 routing_validation := sJ (b.routing_validation.getD (JsonVal.obj []))
                 annotation_time_seconds := (b.annotation_time_seconds.getD 0)
                 submitted_at := now }], .ok)
    else (log, .serverError)

/-- `GoogleSheetsService.saveAnnotation` (`src/google-sheets.js` lines
32-67): returns `false` immediately when the service is not configured
(`!this.sheets || !this.spreadsheetId`), otherwise reports whether the
append API call succeeded — its own catch turns an API failure into
`false`, so the method never throws. -/
def saveAnnotation (configured : Bool) (apiOk : Bool) : Bool :=
  if !configured then false else apiOk

/-- Response JSON of the spreadsheet-mirroring variant of
`POST /api/annotations`. -/
structure SheetsPostResponse where
  success : Bool
  saved_to_sheets : Bool
deriving DecidableEq, Repr

/-- HTTP outcome of the mirroring variant: success body or an error
status. -/
inductive SheetsPostResult where
  | ok (resp : SheetsPostResponse)
  | clientError
  | serverError
deriving DecidableEq, Repr

/-- The spreadsheet-mirroring `POST /api/annotations` variant
(`src/unnamed/part_000` lines 170-243).  Validation rejects an absent
`participant_id`/`slice_id`/`interaction_types` (the latter via
`=== undefined`).  It then calls the mirror first (`saveAnnotation`, which
never throws), writes the primary annotations row inside an inner
`try/catch` whose failure is logged and swallowed, and finally answers
`success: true` with the advisory `saved_to_sheets` flag. -/
def postAnnotationSheets (sL : List String → String) (sJ : JsonVal → String)
    (configured apiOk dbOk : Bool) (now : Nat) (log : List AnnRow)
    (b : AnnBody) : List AnnRow × SheetsPostResult :=
  if !truthyStr b.participant_id || !truthyStr b.slice_id ||
      b.interaction_types = none then
    (log, .clientError)
  else
    let sheetsSaved := saveAnnotation configured apiOk
    let log' :=
      if dbOk then
        log ++ [{ id := log.length + 1
                  participant_id := b.participant_id.getD ""
                  slice_id := b.slice_id.getD ""
                  interaction_types := sL (b.interaction_types.getD [])
                  curiosity_types := sL (b.curiosity_types.getD [])
                  routing_validation := sJ (b.routing_validation.getD (JsonVal.obj []))
                  annotation_time_seconds := (b.annotation_time_seconds.getD 0)
                  submitted_at := now }]
      else log
    (log', .ok ⟨true, sheetsSaved⟩)

/-- One denormalized row of the `/api/export` join, the eight selected
columns of `src/server.js` lines 198-212. -/
structure ExportRow where
  participant_id : String
  slice_id : String
  interaction_types : String
  curiosity_types : String
  routing_validation : String
  annotation_time_seconds : Int
  submitted_at : Nat
  conversation_id : String
deriving DecidableEq, Repr

/-- Assemble one joined row from an annotation and its matching slice. -/
def mkExportRow (a : AnnRow) (s : SliceRec) : ExportRow :=
  { participant_id := a.participant_id
    slice_id := a.slice_id
    interaction_types := a.interaction_types
    curiosity_types := a.curiosity_types
    routing_validation := a.routing_validation
    annotation_time_seconds := a.annotation_time_seconds
    submitted_at := a.submitted_at
    conversation_id := s.conversation_id }

/-- The `ORDER BY a.participant_id, a.submitted_at` comparison. -/
def exportLe (r₁ r₂ : ExportRow) : Bool :=
  r₁.participant_id < r₂.participant_id ||
    (r₁.participant_id = r₂.participant_id && r₁.submitted_at ≤ r₂.submitted_at)

/-- The raw inner join
`annotations JOIN assignments ON (participant_id, slice_id) JOIN slices ON
slice_id = id` of `src/server.js` lines 198-212: an annotation contributes
one row per matching assignment row per matching slice row. -/
def joinRows (annotations : List AnnRow)
    (assignments : List (String × String)) (slices : List SliceRec) :
    List ExportRow :=
  annotations.flatMap fun a =>
    ((assignments.filter fun r =>
        r.1 = a.participant_id && r.2 = a.slice_id).flatMap fun _ =>
      (slices.filter fun s => s.id = a.slice_id).map fun s => mkExportRow a s)

/-- `exportJoined`: the join ordered by participant id, then submission
time. -/
def exportJoined (annotations : List AnnRow)
    (assignments : List (String × String)) (slices : List SliceRec) :
    List ExportRow :=
  (joinRows annotations assignments slices).mergeSort exportLe

/-- `headers.join(',')` of `src/server.js` lines 215-226, the fixed first
CSV line. -/
def exportCsvHeader : String :=
  String.intercalate ","
    ["participant_id", "slice_id", "conversation_id", "interaction_types",
     "curiosity_types", "routing_validation", "annotation_time_seconds",
     "submitted_at"]

/-- `csvRow.join(',')` for one row (`src/server.js` lines 228-240):
the three structured fields are wrapped in double quotes. -/
def exportCsvRow (r : ExportRow) : String :=
  String.intercalate ","
    [r.participant_id, r.slice_id, r.conversation_id,
     "\"" ++ r.interaction_types ++ "\"",
     "\"" ++ r.curiosity_types ++ "\"",
     "\"" ++ r.routing_validation ++ "\"",
     toString r.annotation_time_seconds, toString r.submitted_at]

/-- The complete `/api/export` CSV body: header line then one line per
joined row. -/
def exportCsv (annotations : List AnnRow)
    (assignments : List (String × String)) (slices : List SliceRec) :
    String :=
  (exportJoined annotations assignments slices).foldl
    (fun acc r => acc ++ exportCsvRow r ++ "\n") (exportCsvHeader ++ "\n")

/-- The critical race of §5 run to completion: two first-batch requests for
the same participant both read the ledger (empty, so both see no existing
assignments and both compute a batch from all-zero counts — `order₁` and
`order₂` are the two tie-broken rankings), then their uncoordinated insert
loops execute serialized, request 1 first.  Returns the final ledger and
the error, if any, that each request's insert loop hit. -/
def raceTwoFirstRequests (p : String) (order₁ order₂ : List String) :
    List (String × String) × Option Err × Option Err :=
  let run₁ := insertBatchRun [] p (selectBatch order₁)
  let run₂ := insertBatchRun run₁.1 p (selectBatch order₂)
  (run₂.1, run₁.2, run₂.2)

/-- Concrete 16-slice catalog used to exercise the first-batch race: one
more slice than `SLICES_PER_PARTICIPANT`, all assignment counts zero. -/
def raceOrder₁ : List String :=
  ["s01", "s02", "s03", "s04", "s05", "s06", "s07", "s08",
   "s09", "s10", "s11", "s12", "s13", "s14", "s15", "s16"]

/-- A second legitimate tie-broken ranking of the same catalog: the slice
the first ranking leaves out comes first. -/
def raceOrder₂ : List String := "s16" :: raceOrder₁.take 15

/-- One-record slice store used by concrete witnesses. -/
def wStore : List SliceRec := [⟨"s1", "c1", none, none, none⟩]

/-- The response the slices endpoint produces for participant `p1` on
`wStore` with batch `["s1"]`. -/
def wResp : SlicesResponse :=
  ⟨"p1", [⟨"s1", "c1", none, JsonVal.arr [], JsonVal.obj []⟩], 1⟩

end InteractionAssess

namespace InteractionAssess

/-! ### Helper lemmas -/

theorem insertBatchRun_ok (p : String) :
    ∀ (b : List String) (rows rows' : List (String × String)),
    insertBatchRun rows p b = (rows', none) →
    rows' = rows ++ b.map (fun s => (p, s)) ∧ b.Nodup ∧ ∀ s ∈ b, (p, s) ∉ rows := by
  intro b
  induction b with
  | nil =>
    intro rows rows' h
    simp only [insertBatchRun, Prod.mk.injEq] at h
    simp [h.1.symm]
  | cons s rest ih =>
    intro rows rows' h
    unfold insertBatchRun insertAssignment at h
    by_cases hmem : (p, s) ∈ rows
    · simp [hmem] at h
    · simp only [hmem, if_neg, ite_false] at h
      obtain ⟨h1, h2, h3⟩ := ih (rows ++ [(p, s)]) rows' h
      refine ⟨by simp [h1], ?_, ?_⟩
      · refine List.nodup_cons.mpr ⟨fun hs => ?_, h2⟩
        exact (h3 s hs) (by simp)
      · intro t ht
        rcases List.mem_cons.mp ht with rfl | ht'
        · exact hmem
        · intro hin
          exact (h3 t ht') (by simp [hin])

theorem hydrateSlice_ok_id (parse : String → Option JsonVal)
    (store : List SliceRec) (id : String) (h : HydratedSlice)
    (hok : hydrateSlice parse store id = .ok h) : h.id = id := by
  unfold hydrateSlice at hok
  cases hfind : store.find? (fun r => r.id = id) with
  | none => simp [hfind] at hok
  | some r =>
    have hrid : r.id = id := by
      have := List.find?_some hfind
      simpa using this
    simp only [hfind] at hok
    cases hft : parse (falsyDefault r.focus_turns "[]") with
    | none => simp [hft] at hok
    | some ft =>
      cases hhp : parse (falsyDefault r.hybrid_predictions "\x7b\x7d") with
      | none => simp [hft, hhp] at hok
      | some hp =>
        simp only [hft, hhp, Except.ok.injEq] at hok
        rw [← hok]
        exact hrid

theorem hydrateAll_ok_ids (parse : String → Option JsonVal)
    (store : List SliceRec) :
    ∀ (ids : List String) (hs : List HydratedSlice),
    hydrateAll parse store ids = .ok hs → hs.map (fun h => h.id) = ids := by
  intro ids
  induction ids with
  | nil =>
    intro hs h
    simp only [hydrateAll, Except.ok.injEq] at h
    simp [← h]
  | cons id rest ih =>
    intro hs h
    unfold hydrateAll at h
    cases h1 : hydrateSlice parse store id with
    | error e => simp [h1] at h
    | ok hd =>
      simp only [h1] at h
      cases h2 : hydrateAll parse store rest with
      | error e => simp [h2] at h
      | ok tl =>
        simp only [h2, Except.ok.injEq] at h
        subst h
        simp [hydrateSlice_ok_id parse store id hd h1, ih tl h2]

theorem hydrateAll_error_of_mem (parse : String → Option JsonVal)
    (store : List SliceRec) :
    ∀ (ids : List String) (id : String), id ∈ ids →
    (∃ e, hydrateSlice parse store id = .error e) →
    ∃ e, hydrateAll parse store ids = .error e := by
  intro ids
  induction ids with
  | nil => intro id h; simp at h
  | cons hd tl ih =>
    intro id hmem ⟨e, herr⟩
    unfold hydrateAll
    cases h1 : hydrateSlice parse store hd with
    | error e' => exact ⟨e', by simp⟩
    | ok v =>
      have hid : id ∈ tl := by
        rcases List.mem_cons.mp hmem with rfl | h
        · rw [h1] at herr; exact absurd herr (by simp)
        · exact h
      obtain ⟨e'', h2⟩ := ih id hid ⟨e, herr⟩
      exact ⟨e'', by simp [h2]⟩

theorem hydrateAllOkOfParseable (parse : String → Option JsonVal)
    (store : List SliceRec) :
    ∀ (ids : List String),
    (∀ id ∈ ids, ∃ r, store.find? (fun x => x.id = id) = some r ∧
      (∃ v, parse (falsyDefault r.focus_turns "[]") = some v) ∧
      (∃ w, parse (falsyDefault r.hybrid_predictions "\x7b\x7d") = some w)) →
    ∃ hs, hydrateAll parse store ids = .ok hs ∧ hs.map (fun h => h.id) = ids := by
  intro ids
  induction ids with
  | nil => intro _; exact ⟨[], rfl, rfl⟩
  | cons id rest ih =>
    intro hall
    obtain ⟨r, hfind, ⟨v, hv⟩, ⟨w, hw⟩⟩ := hall id (by simp)
    obtain ⟨tl, htl, hids⟩ := ih (fun i hi => hall i (by simp [hi]))
    refine ⟨⟨r.id, r.conversation_id, r.context, v, w⟩ :: tl, ?_, ?_⟩
    · unfold hydrateAll hydrateSlice
      simp [hfind, hv, hw, htl]
    · have hrid : r.id = id := by
        have := List.find?_some hfind
        simpa using this
      simp [hrid, hids]

theorem length_filter_eq_le_one {α : Type} [DecidableEq α] (a : α) :
    ∀ l : List α, l.Nodup → (l.filter (fun x => x = a)).length ≤ 1 := by
  intro l
  induction l with
  | nil => intro _; simp
  | cons x xs ih =>
    intro h
    rcases List.nodup_cons.mp h with ⟨hx, hxs⟩
    rw [List.filter_cons]
    by_cases hxa : x = a
    · subst hxa
      have hnil : xs.filter (fun y => y = x) = [] :=
        List.filter_eq_nil_iff.mpr (fun y hy => by
          simp only [decide_eq_true_eq]
          intro he; exact hx (he ▸ hy))
      simp [hnil]
    · have hd : (decide (x = a)) = false := by simp [hxa]
      rw [hd]
      simpa using ih hxs

/-! ### Claim theorems -/

/-- C2 (code observation): the batch insert loop is not atomic.  With the
ledger already holding `(p1, s2)` — e.g. committed by a concurrent winner
between this request's read and its insert loop — inserting the batch
`[s1, s2]` commits `(p1, s1)` and then fails with a uniqueness violation,
leaving that partial subset of the batch committed.  The claimed
all-or-nothing behaviour does not hold. -/
theorem c2_partial_batch_commit :
    insertBatchRun [("p1", "s2")] "p1" ["s1", "s2"] =
      ([("p1", "s2"), ("p1", "s1")], some Err.uniqueness) ∧
    ("p1", "s1") ∈ (insertBatchRun [("p1", "s2")] "p1" ["s1", "s2"]).1 := by
  constructor
  · rfl
  · decide

/-- C4 (code observation): two concurrent first-batch requests for the same
participant against an empty ledger, with two legitimate tie-broken
rankings of a 16-slice catalog, leave 16 assignment rows for the
participant — a mixed set, not one batch of `min 15 16 = 15` — and the
losing request's insert loop aborts with a uniqueness violation, so it
answers 500 instead of the winner's batch. -/
theorem c4_race_mixed_batch :
    SortedByCounts [] raceOrder₁ ∧ SortedByCounts [] raceOrder₂ ∧
    raceOrder₂.Perm raceOrder₁ ∧
    ((raceTwoFirstRequests "p1" raceOrder₁ raceOrder₂).1.filter
        (fun r => r.1 = "p1")).length = 16 ∧
    min SLICES_PER_PARTICIPANT raceOrder₁.length = 15 ∧
    (raceTwoFirstRequests "p1" raceOrder₁ raceOrder₂).2.2 = some Err.uniqueness := by
  refine ⟨?_, ?_, ?_, ?_, ?_, ?_⟩
  · unfold SortedByCounts; decide
  · unfold SortedByCounts; decide
  · decide
  · decide
  · decide
  · decide

/-- C6 (code observation): a first-time participant against an empty
catalog produces an empty batch, so the slice-detail query is
`SELECT * FROM slices WHERE id IN ()` — rejected by the SQL engine — and
the request answers 500, not a successful empty batch. -/
theorem c6_empty_catalog_errors :
    getAssignmentForParticipant stubParse [] [] "p1" [] =
      ([], .error Err.sqlSyntax) := rfl

/-- C5 (counterexample): a stored `focus_turns` that is present but not
parseable as JSON is not replaced by an empty default — `JSON.parse`
throws, the route's catch answers 500, and the whole batch-fetch fails
even though the participant's assignment resolves fine otherwise. -/
theorem c5_counterexample :
    getAssignmentForParticipant stubParse
        [⟨"s1", "c1", none, some "oops", none⟩] [("p1", "s1")] "p1" [] =
      ([("p1", "s1")], .error Err.jsonError) := rfl

/-- C9 (counterexample): with the spreadsheet mirror healthy but the
primary annotations insert failing, the failure is swallowed — no row is
written, yet the response is still `success: true`.  The response is
therefore not a success *exactly when* the primary write succeeds. -/
theorem c9_counterexample :
    (postAnnotationSheets (fun _ => "x") (fun _ => "x") true true false 7 []
        ⟨some "p1", some "s1", some ["q"], none, none, none⟩).1 = [] ∧
    (postAnnotationSheets (fun _ => "x") (fun _ => "x") true true false 7 []
        ⟨some "p1", some "s1", some ["q"], none, none, none⟩).2 =
      .ok ⟨true, true⟩ := ⟨rfl, rfl⟩

/-- C10 (counterexample): every assigned id having a record in the Slice
Store is not enough for hydration to succeed — a record whose stored
`focus_turns` does not parse still fails the whole batch. -/
theorem c10_counterexample :
    (List.find? (fun r => r.id = "s1")
        [(⟨"s1", "c1", none, some "oops", none⟩ : SliceRec)]).isSome = true ∧
    hydrateAll stubParse [⟨"s1", "c1", none, some "oops", none⟩] ["s1"] =
      .error Err.jsonError := by
  constructor
  · decide
  · rfl

/-- C3: for any ledger and catalog, any outcome `order` of the count-sorted
ranking yields a batch of size `min SLICES_PER_PARTICIPANT M`; every
selected slice's assignment count is at most every unselected catalog
slice's count; and a catalog smaller than the batch size is selected
whole. -/
theorem c3_fair_batch_selection (rows : List (String × String))
    (catalog order : List String)
    (hperm : order.Perm catalog) (hsorted : SortedByCounts rows order) :
    (selectBatch order).length = min SLICES_PER_PARTICIPANT catalog.length ∧
    (∀ s ∈ selectBatch order, ∀ t ∈ catalog, t ∉ selectBatch order →
      sliceCount rows s ≤ sliceCount rows t) ∧
    (catalog.length < SLICES_PER_PARTICIPANT →
      (selectBatch order).Perm catalog) := by
  refine ⟨?_, ?_, ?_⟩
  · simp [selectBatch, List.length_take, hperm.length_eq]
  · intro s hs t ht htn
    simp only [selectBatch] at hs htn
    have htord : t ∈ order := hperm.mem_iff.mpr ht
    have hsplit : t ∈ order.take SLICES_PER_PARTICIPANT ++
        order.drop SLICES_PER_PARTICIPANT := by
      rw [List.take_append_drop]; exact htord
    have htdrop : t ∈ order.drop SLICES_PER_PARTICIPANT := by
      rcases List.mem_append.mp hsplit with h | h
      · exact absurd h htn
      · exact h
    have hp : List.Pairwise (fun a b => sliceCount rows a ≤ sliceCount rows b)
        (order.take SLICES_PER_PARTICIPANT ++
          order.drop SLICES_PER_PARTICIPANT) := by
      rw [List.take_append_drop]; exact hsorted
    exact (List.pairwise_append.mp hp).2.2 s hs t htdrop
  · intro hlt
    have hle : order.length ≤ SLICES_PER_PARTICIPANT := by
      rw [hperm.length_eq]; omega
    rw [selectBatch, List.take_of_length_le hle]
    exact hperm

/-- C3 witness: catalog `["a", "b"]` where `a` already has one assignment;
the ranking `["b", "a"]` is count-sorted, and both batch-size and fairness
conclusions evaluate on it. -/
theorem c3_fair_batch_selection_witness :
    (selectBatch ["b", "a"]).length =
      min SLICES_PER_PARTICIPANT (["a", "b"] : List String).length ∧
    (∀ s ∈ selectBatch ["b", "a"], ∀ t ∈ (["a", "b"] : List String),
      t ∉ selectBatch ["b", "a"] →
      sliceCount [("q", "a")] s ≤ sliceCount [("q", "a")] t) ∧
    ((["a", "b"] : List String).length < SLICES_PER_PARTICIPANT →
      (selectBatch ["b", "a"]).Perm ["a", "b"]) :=
  c3_fair_batch_selection [("q", "a")] ["a", "b"] ["b", "a"]
    (by decide) (by unfold SortedByCounts; decide)

/-- C7: a `POST /api/annotations` body missing `participant_id`,
`slice_id` or `interaction_types` is rejected with a client error before
any storage access, leaving the annotations table untouched; a present but
empty `interaction_types` array passes validation and the row is
appended. -/
theorem c7_annotation_validation :
    (∀ (sL : List String → String) (sJ : JsonVal → String) (dbOk : Bool)
        (now : Nat) (log : List AnnRow) (b : AnnBody),
      (b.participant_id = none ∨ b.slice_id = none ∨
        b.interaction_types = none) →
      postAnnotation sL sJ dbOk now log b = (log, .clientError)) ∧
    (∀ (sL : List String → String) (sJ : JsonVal → String) (now : Nat)
        (log : List AnnRow) (b : AnnBody) (pid sid : String),
      b.participant_id = some pid → pid ≠ "" →
      b.slice_id = some sid → sid ≠ "" →
      b.interaction_types = some [] →
      ∃ row, postAnnotation sL sJ true now log b = (log ++ [row], .ok) ∧
        row.participant_id = pid ∧ row.slice_id = sid) := by
  constructor
  · intro sL sJ dbOk now log b habs
    unfold postAnnotation
    rcases habs with h | h | h <;> simp [h, truthyStr, truthyList]
  · intro sL sJ now log b pid sid hpid hpne hsid hsne hits
    unfold postAnnotation
    have hg : (!truthyStr b.participant_id || !truthyStr b.slice_id ||
        !truthyList b.interaction_types) = false := by
      simp [hpid, hsid, hits, truthyStr, truthyList, hpne, hsne]
    refine ⟨⟨log.length + 1, pid, sid, sL [],
        sL (b.curiosity_types.getD []),
        sJ (b.routing_validation.getD (JsonVal.obj [])),
        b.annotation_time_seconds.getD 0, now⟩, ?_, rfl, rfl⟩
    simp [hg, hpid, hsid, hits, truthyStr, truthyList, hpne, hsne]

/-- C7 witness: a body lacking `participant_id` is rejected with no row
written; a body with `interaction_types = []` is accepted and appends a
row. -/
theorem c7_annotation_validation_witness :
    postAnnotation (fun _ => "x") (fun _ => "y") true 3 []
        ⟨none, some "s1", some ["q"], none, none, none⟩ =
      ([], .clientError) ∧
    ∃ row, postAnnotation (fun _ => "x") (fun _ => "y") true 3 []
        ⟨some "p1", some "s1", some [], none, none, none⟩ =
      ([] ++ [row], .ok) ∧ row.participant_id = "p1" ∧ row.slice_id = "s1" :=
  ⟨c7_annotation_validation.1 _ _ true 3 [] _ (Or.inl rfl),
   c7_annotation_validation.2 _ _ 3 [] _ "p1" "s1" rfl (by decide) rfl
     (by decide) rfl⟩

/-- C5 (amended): each of `focus_turns` and `hybrid_predictions` is
defaulted independently — an absent (NULL or empty-string) value decodes
to the empty array / empty object while the other field takes whatever its
stored value parses to; but a present, non-empty stored value on which
`JSON.parse` throws, in either field, fails the whole batch-fetch — only
absence is recovered. -/
theorem c5_amended_decode_defaults :
    (∀ (parse : String → Option JsonVal) (store : List SliceRec)
        (id : String) (r : SliceRec) (w : JsonVal),
      parse "[]" = some (JsonVal.arr []) →
      store.find? (fun x => x.id = id) = some r →
      (r.focus_turns = none ∨ r.focus_turns = some "") →
      parse (falsyDefault r.hybrid_predictions "\x7b\x7d") = some w →
      hydrateSlice parse store id =
        .ok ⟨r.id, r.conversation_id, r.context, JsonVal.arr [], w⟩) ∧
    (∀ (parse : String → Option JsonVal) (store : List SliceRec)
        (id : String) (r : SliceRec) (v : JsonVal),
      parse "\x7b\x7d" = some (JsonVal.obj []) →
      store.find? (fun x => x.id = id) = some r →
      (r.hybrid_predictions = none ∨ r.hybrid_predictions = some "") →
      parse (falsyDefault r.focus_turns "[]") = some v →
      hydrateSlice parse store id =
        .ok ⟨r.id, r.conversation_id, r.context, v, JsonVal.obj []⟩) ∧
    (∀ (parse : String → Option JsonVal) (store : List SliceRec)
        (ids : List String) (id : String) (r : SliceRec) (s : String),
      id ∈ ids →
      store.find? (fun x => x.id = id) = some r →
      ((r.focus_turns = some s ∧ s ≠ "" ∧ parse s = none) ∨
        (r.hybrid_predictions = some s ∧ s ≠ "" ∧ parse s = none)) →
      ∃ e, hydrateAll parse store ids = .error e) := by
  refine ⟨?_, ?_, ?_⟩
  · intro parse store id r w hpa hfind hft hhp
    unfold hydrateSlice
    have h1 : falsyDefault r.focus_turns "[]" = "[]" := by
      rcases hft with h | h <;> simp [falsyDefault, h]
    simp [hfind, h1, hpa, hhp]
  · intro parse store id r v hpo hfind hhp hft
    unfold hydrateSlice
    have h2 : falsyDefault r.hybrid_predictions "\x7b\x7d" = "\x7b\x7d" := by
      rcases hhp with h | h <;> simp [falsyDefault, h]
    simp [hfind, h2, hpo, hft]
  · intro parse store ids id r s hmem hfind hbad
    apply hydrateAll_error_of_mem parse store ids id hmem
    rcases hbad with ⟨hft, hsne, hpn⟩ | ⟨hhp, hsne, hpn⟩
    · refine ⟨Err.jsonError, ?_⟩
      unfold hydrateSlice
      have hfd : falsyDefault r.focus_turns "[]" = s := by
        simp [falsyDefault, hft, hsne]
      simp [hfind, hfd, hpn]
    · have hhd : falsyDefault r.hybrid_predictions "\x7b\x7d" = s := by
        simp [falsyDefault, hhp, hsne]
      cases hft : parse (falsyDefault r.focus_turns "[]") with
      | none =>
        refine ⟨Err.jsonError, ?_⟩
        unfold hydrateSlice
        simp [hfind, hft]
      | some ft =>
        refine ⟨Err.jsonError, ?_⟩
        unfold hydrateSlice
        simp [hfind, hft, hhd, hpn]

/-- C5 witness: an absent `focus_turns` defaults to the empty array while
the sibling field decodes; an absent `hybrid_predictions` defaults to the
empty object likewise; and a present unparseable value in either field —
`"oops"` in `focus_turns`, `"bad"` in `hybrid_predictions` — fails its
whole batch. -/
theorem c5_amended_decode_defaults_witness :
    hydrateSlice stubParse [⟨"s1", "c1", none, none, some ""⟩] "s1" =
      .ok ⟨"s1", "c1", none, JsonVal.arr [], JsonVal.obj []⟩ ∧
    hydrateSlice stubParse [⟨"s2", "c2", none, some "", none⟩] "s2" =
      .ok ⟨"s2", "c2", none, JsonVal.arr [], JsonVal.obj []⟩ ∧
    (∃ e, hydrateAll stubParse [⟨"s3", "c3", none, some "oops", none⟩]
        ["s3"] = .error e) ∧
    ∃ e, hydrateAll stubParse [⟨"s4", "c4", none, none, some "bad"⟩]
        ["s4"] = .error e :=
  ⟨c5_amended_decode_defaults.1 stubParse _ "s1"
      ⟨"s1", "c1", none, none, some ""⟩ (JsonVal.obj []) rfl rfl
      (Or.inl rfl) rfl,
   c5_amended_decode_defaults.2.1 stubParse _ "s2"
      ⟨"s2", "c2", none, some "", none⟩ (JsonVal.arr []) rfl rfl
      (Or.inl rfl) rfl,
   c5_amended_decode_defaults.2.2 stubParse _ ["s3"] "s3"
      ⟨"s3", "c3", none, some "oops", none⟩ "oops" (by decide) rfl
      (Or.inl ⟨rfl, by decide, rfl⟩),
   c5_amended_decode_defaults.2.2 stubParse _ ["s4"] "s4"
      ⟨"s4", "c4", none, none, some "bad"⟩ "bad" (by decide) rfl
      (Or.inr ⟨rfl, by decide, rfl⟩)⟩

/-- C9 (amended): for every valid submission the mirroring endpoint always
answers `success: true` — even when the primary annotations insert fails,
that failure being swallowed — and the advisory `saved_to_sheets` flag is
exactly the mirror outcome, `false` whenever the mirror is unconfigured or
its API call failed. -/
theorem c9_amended_always_success :
    ∀ (sL : List String → String) (sJ : JsonVal → String)
      (configured apiOk dbOk : Bool) (now : Nat) (log : List AnnRow)
      (b : AnnBody) (pid sid : String) (its : List String),
      b.participant_id = some pid → pid ≠ "" →
      b.slice_id = some sid → sid ≠ "" →
      b.interaction_types = some its →
      (postAnnotationSheets sL sJ configured apiOk dbOk now log b).2 =
        .ok ⟨true, saveAnnotation configured apiOk⟩ ∧
      ((configured = false ∨ apiOk = false) →
        saveAnnotation configured apiOk = false) := by
  intro sL sJ configured apiOk dbOk now log b pid sid its hpid hpne hsid
    hsne hits
  constructor
  · unfold postAnnotationSheets
    simp [hpid, hsid, hits, truthyStr, hpne, hsne]
  · intro h
    unfold saveAnnotation
    rcases h with h | h <;> simp [h]

/-- C9 witness: an unconfigured mirror with a succeeding primary write
still answers success, with `saved_to_sheets: false`. -/
theorem c9_amended_always_success_witness :
    (postAnnotationSheets (fun _ => "x") (fun _ => "y") false false true 2 []
        ⟨some "p1", some "s1", some [], none, none, none⟩).2 =
      .ok ⟨true, saveAnnotation false false⟩ ∧
    ((false = false ∨ false = false) → saveAnnotation false false = false) :=
  c9_amended_always_success _ _ false false true 2 [] _ "p1" "s1" []
    rfl (by decide) rfl (by decide) rfl

/-- C10 (amended): an assigned id with no record in the Slice Store makes
the whole request tail fail with a server error rather than omitting the
slice; and when every assigned id resolves to a record whose stored fields
are decodable, hydration succeeds for the whole batch, preserving the id
order. -/
theorem c10_amended_hydration_totality :
    (∀ (parse : String → Option JsonVal) (store : List SliceRec)
        (p : String) (ids : List String) (id : String), id ∈ ids →
      store.find? (fun r => r.id = id) = none →
      ∃ e, finishRequest parse store p ids = .error e) ∧
    (∀ (parse : String → Option JsonVal) (store : List SliceRec)
        (ids : List String),
      (∀ id ∈ ids, ∃ r, store.find? (fun x => x.id = id) = some r ∧
        (∃ v, parse (falsyDefault r.focus_turns "[]") = some v) ∧
        (∃ w, parse (falsyDefault r.hybrid_predictions "\x7b\x7d") = some w)) →
      ∃ hs, hydrateAll parse store ids = .ok hs ∧
        hs.map (fun h => h.id) = ids) := by
  constructor
  · intro parse store p ids id hmem hfind
    have herr : ∃ e, hydrateSlice parse store id = .error e := by
      refine ⟨Err.typeError, ?_⟩
      unfold hydrateSlice
      simp [hfind]
    obtain ⟨e, he⟩ := hydrateAll_error_of_mem parse store ids id hmem herr
    refine ⟨e, ?_⟩
    unfold finishRequest
    have hne : ids.isEmpty = false := by
      cases ids with
      | nil => simp at hmem
      | cons a l => rfl
    simp [hne, he]
  · exact hydrateAllOkOfParseable

/-- C10 witness: an id absent from the store fails the request tail, and a
store covering both assigned ids with decodable fields hydrates the whole
batch. -/
theorem c10_amended_hydration_totality_witness :
    (∃ e, finishRequest stubParse [] "p1" ["zz"] = .error e) ∧
    ∃ hs, hydrateAll stubParse
        [⟨"s1", "c1", none, none, none⟩, ⟨"s2", "c2", none, some "", none⟩]
        ["s2", "s1"] = .ok hs ∧
      hs.map (fun h => h.id) = ["s2", "s1"] :=
  ⟨c10_amended_hydration_totality.1 stubParse [] "p1" ["zz"] "zz"
      (by decide) rfl,
   c10_amended_hydration_totality.2 stubParse _ ["s2", "s1"] (by
      intro id hid
      rcases List.mem_cons.mp hid with rfl | hid'
      · exact ⟨⟨"s2", "c2", none, some "", none⟩, rfl,
          ⟨JsonVal.arr [], rfl⟩, ⟨JsonVal.obj [], rfl⟩⟩
      · rcases List.mem_singleton.mp hid' with rfl
        exact ⟨⟨"s1", "c1", none, none, none⟩, rfl,
          ⟨JsonVal.arr [], rfl⟩, ⟨JsonVal.obj [], rfl⟩⟩)⟩

/-- C1: the slices endpoint is an idempotent re-read.  A participant with
existing assignment rows gets exactly the recorded slice ids back and the
ledger is untouched; and for a never-before-seen participant whose first
call succeeds, a second call leaves the ledger unchanged, returns the very
same response, and the ledger holds exactly one row per returned
`(participant, slice)` pair. -/
theorem c1_idempotent_reread :
    (∀ (parse : String → Option JsonVal) (store : List SliceRec)
        (rows : List (String × String)) (p : String) (order : List String),
      rows.filter (fun r => r.1 = p) ≠ [] →
      (getAssignmentForParticipant parse store rows p order).1 = rows ∧
      ∀ resp,
        (getAssignmentForParticipant parse store rows p order).2 = .ok resp →
        resp.slices.map (fun h => h.id) =
          (rows.filter (fun r => r.1 = p)).map (fun r => r.2)) ∧
    (∀ (parse : String → Option JsonVal) (store : List SliceRec)
        (rows : List (String × String)) (p : String)
        (order₁ order₂ : List String) (resp₁ : SlicesResponse),
      rows.filter (fun r => r.1 = p) = [] →
      (getAssignmentForParticipant parse store rows p order₁).2 = .ok resp₁ →
      getAssignmentForParticipant parse store
          (getAssignmentForParticipant parse store rows p order₁).1 p order₂ =
        ((getAssignmentForParticipant parse store rows p order₁).1,
          .ok resp₁) ∧
      (∀ s, s ∈ resp₁.slices.map (fun h => h.id) ↔
        (p, s) ∈ (getAssignmentForParticipant parse store rows p order₁).1) ∧
      ∀ s, (((getAssignmentForParticipant parse store rows p order₁).1).filter
          (fun r => r = (p, s))).length ≤ 1) := by
  constructor
  · intro parse store rows p order hne
    have hex : ((rows.filter (fun r => r.1 = p)).map
        (fun r => r.2)).isEmpty = false := by
      simp [List.isEmpty_iff, hne]
    constructor
    · simp [getAssignmentForParticipant, hex]
    · intro resp hresp
      simp only [getAssignmentForParticipant, hex, Bool.false_eq_true,
        if_false] at hresp
      unfold finishRequest at hresp
      rw [hex] at hresp
      simp only [Bool.false_eq_true, if_false] at hresp
      cases hhy : hydrateAll parse store
          ((rows.filter (fun r => r.1 = p)).map (fun r => r.2)) with
      | error e => rw [hhy] at hresp; exact absurd hresp (by simp)
      | ok hs =>
        rw [hhy] at hresp
        have hids := hydrateAll_ok_ids parse store _ hs hhy
        cases hresp
        simpa using hids
  · intro parse store rows p order₁ order₂ resp₁ hfresh hok
    have hex : ((rows.filter (fun r => r.1 = p)).map
        (fun r => r.2)).isEmpty = true := by simp [hfresh]
    have hnotp : ∀ r ∈ rows, r.1 ≠ p := by
      intro r hr
      have := List.filter_eq_nil_iff.mp hfresh r hr
      simpa using this
    simp only [getAssignmentForParticipant, hex, if_true] at hok ⊢
    cases hrun2 : (insertBatchRun rows p (selectBatch order₁)).2 with
    | some e => rw [hrun2] at hok; simp at hok
    | none =>
      rw [hrun2] at hok
      simp only at hok
      have hfull : insertBatchRun rows p (selectBatch order₁) =
          ((insertBatchRun rows p (selectBatch order₁)).1, none) := by
        rw [← hrun2]
      obtain ⟨h1, hnd, hfb⟩ :=
        insertBatchRun_ok p (selectBatch order₁) rows _ hfull
      -- analyse the successful finishRequest of the first call
      unfold finishRequest at hok
      cases hie : (selectBatch order₁).isEmpty with
      | true => rw [hie] at hok; simp at hok
      | false =>
        rw [hie] at hok
        simp only [Bool.false_eq_true, if_false] at hok
        cases hhy : hydrateAll parse store (selectBatch order₁) with
        | error e => rw [hhy] at hok; exact absurd hok (by simp)
        | ok hs =>
          rw [hhy] at hok
          have hids := hydrateAll_ok_ids parse store _ hs hhy
          -- the ledger after the first call
          have hfil : ((insertBatchRun rows p (selectBatch order₁)).1.filter
              (fun r => r.1 = p)) =
              (selectBatch order₁).map (fun s => (p, s)) := by
            rw [h1, List.filter_append, hfresh, List.nil_append]
            apply List.filter_eq_self.mpr
            intro a ha
            rcases List.mem_map.mp ha with ⟨t, _, rfl⟩
            simp
          have hex2 : (((insertBatchRun rows p (selectBatch order₁)).1.filter
              (fun r => r.1 = p)).map (fun r => r.2)) = selectBatch order₁ := by
            rw [hfil, List.map_map]
            simp
          refine ⟨?_, ?_, ?_⟩
          · rw [hex2]
            have hie2 : (selectBatch order₁).isEmpty = false := hie
            simp only [hie2, Bool.false_eq_true, if_false]
            unfold finishRequest
            rw [hie2]
            simp only [Bool.false_eq_true, if_false, hhy]
            rw [← hok]
          · intro s
            cases hok
            have hmap : hs.map (fun h => h.id) = selectBatch order₁ := hids
            rw [hmap, h1]
            constructor
            · intro hsb
              exact List.mem_append.mpr (Or.inr (List.mem_map.mpr
                ⟨s, hsb, rfl⟩))
            · intro hmem
              rcases List.mem_append.mp hmem with hin | hin
              · exact absurd rfl (hnotp _ hin)
              · rcases List.mem_map.mp hin with ⟨t, ht, heq⟩
                cases heq
                exact ht
          · intro s
            rw [h1, List.filter_append, List.length_append]
            have hz : rows.filter (fun r => r = (p, s)) = [] := by
              apply List.filter_eq_nil_iff.mpr
              intro r hr
              simp only [decide_eq_true_eq]
              intro he
              exact (hnotp _ hr) (by rw [he])
            have hinj : Function.Injective (fun s : String => (p, s)) := by
              intro a b hab
              simpa using hab
            have hle1 : (((selectBatch order₁).map
                (fun s => (p, s))).filter
                  (fun r => r = (p, s))).length ≤ 1 :=
              length_filter_eq_le_one (p, s) _ (hnd.map hinj)
            rw [hz]
            simpa using hle1

/-- C1 witness: a participant holding `("p1", "s1")` re-reads that row with
no ledger change, and a fresh participant's two successive calls on a
one-slice catalog agree and leave single rows. -/
theorem c1_idempotent_reread_witness :
    ((getAssignmentForParticipant stubParse wStore [("p1", "s1")]
        "p1" []).1 = [("p1", "s1")] ∧
      ∀ resp, (getAssignmentForParticipant stubParse wStore [("p1", "s1")]
          "p1" []).2 = .ok resp →
        resp.slices.map (fun h => h.id) =
          (([("p1", "s1")] : List (String × String)).filter
            (fun r => r.1 = "p1")).map (fun r => r.2)) ∧
    (getAssignmentForParticipant stubParse wStore
        (getAssignmentForParticipant stubParse wStore [] "p1" ["s1"]).1
        "p1" ["s1"] =
      ((getAssignmentForParticipant stubParse wStore [] "p1" ["s1"]).1,
        .ok wResp) ∧
      (∀ s, s ∈ wResp.slices.map (fun h => h.id) ↔
        ("p1", s) ∈ (getAssignmentForParticipant stubParse wStore [] "p1"
          ["s1"]).1) ∧
      ∀ s, (((getAssignmentForParticipant stubParse wStore [] "p1"
          ["s1"]).1).filter (fun r => r = ("p1", s))).length ≤ 1) :=
  ⟨c1_idempotent_reread.1 stubParse wStore [("p1", "s1")] "p1" []
      (by decide),
   c1_idempotent_reread.2 stubParse wStore [] "p1" ["s1"] ["s1"] wResp
      rfl rfl⟩

theorem filter_pair_nodup :
    ∀ (ass : List (String × String)), ass.Nodup → ∀ (u v : String),
    ass.filter (fun r => r.1 = u && r.2 = v) =
      if (u, v) ∈ ass then [(u, v)] else [] := by
  intro ass
  induction ass with
  | nil => intro _ u v; simp
  | cons y rest ih =>
    intro h u v
    rcases List.nodup_cons.mp h with ⟨hy, hrest⟩
    rw [List.filter_cons]
    by_cases hyx : y = (u, v)
    · subst hyx
      have hnil : rest.filter (fun r => r.1 = u && r.2 = v) = [] := by
        apply List.filter_eq_nil_iff.mpr
        intro r hr
        simp only [Bool.and_eq_true, decide_eq_true_eq]
        rintro ⟨h1, h2⟩
        rcases r with ⟨r1, r2⟩
        simp only at h1 h2
        subst h1; subst h2
        exact hy hr
      simp [hnil]
    · have hpred : (decide (y.1 = u) && decide (y.2 = v)) = false := by
        rcases y with ⟨y1, y2⟩
        by_cases h1 : y1 = u
        · subst h1
          have h2 : y2 ≠ v := fun hv => hyx (by rw [hv])
          simp [h2]
        · simp [h1]
      rw [hpred]
      simp only [Bool.false_eq_true, if_false]
      rw [ih hrest u v]
      have hmem : ((u, v) ∈ y :: rest) ↔ ((u, v) ∈ rest) := by
        simp only [List.mem_cons]
        constructor
        · rintro (h' | h')
          · exact absurd h'.symm hyx
          · exact h'
        · exact Or.inr
      by_cases hm : (u, v) ∈ rest
      · simp [hm, hmem.mpr hm]
      · have hm2 : ¬((u, v) ∈ y :: rest) := fun h' => hm (hmem.mp h')
        simp [hm, hm2]

theorem filter_slice_nodup :
    ∀ (sl : List SliceRec), (sl.map (fun s => s.id)).Nodup → ∀ v,
    sl.filter (fun s => s.id = v) =
      (sl.find? (fun s => s.id = v)).toList := by
  intro sl
  induction sl with
  | nil => intro _ v; simp
  | cons s rest ih =>
    intro h v
    have hmapcons : (s.id :: rest.map (fun t => t.id)).Nodup := by
      simpa using h
    rcases List.nodup_cons.mp hmapcons with ⟨hid, hrest'⟩
    rw [List.filter_cons]
    by_cases hsv : s.id = v
    · have hnil : rest.filter (fun t => t.id = v) = [] := by
        apply List.filter_eq_nil_iff.mpr
        intro t ht
        simp only [decide_eq_true_eq]
        intro he
        exact hid (List.mem_map.mpr ⟨t, ht, by rw [he, hsv]⟩)
      have hfind : (s :: rest).find? (fun t => t.id = v) = some s :=
        List.find?_cons_of_pos _ (by simp [hsv])
      simp [hsv, hnil, hfind]
    · have hd : (decide (s.id = v)) = false := by simp [hsv]
      have hfind : (s :: rest).find? (fun t => t.id = v) =
          rest.find? (fun t => t.id = v) :=
        List.find?_cons_of_neg _ (by simp [hsv])
      rw [hd]
      simp only [Bool.false_eq_true, if_false]
      rw [hfind]
      exact ih hrest' v

theorem joinRows_eq_filterMap (ass : List (String × String))
    (sl : List SliceRec) (hass : ass.Nodup)
    (hsl : (sl.map (fun s => s.id)).Nodup) :
    ∀ ann : List AnnRow, joinRows ann ass sl =
      ann.filterMap (fun a =>
        if (a.participant_id, a.slice_id) ∈ ass then
          (sl.find? (fun s => s.id = a.slice_id)).map (mkExportRow a)
        else none) := by
  intro ann
  induction ann with
  | nil => simp [joinRows]
  | cons a rest ih =>
    simp only [joinRows, List.flatMap_cons] at ih ⊢
    rw [filter_pair_nodup ass hass a.participant_id a.slice_id,
      List.filterMap_cons, ih]
    by_cases hm : (a.participant_id, a.slice_id) ∈ ass
    · simp only [hm, if_true]
      rw [filter_slice_nodup sl hsl a.slice_id]
      cases hf : sl.find? (fun s => s.id = a.slice_id) with
      | none => simp [hf]
      | some s0 => simp [hf]
    · simp [hm]

theorem exportLe_trans : ∀ a b c : ExportRow,
    exportLe a b = true → exportLe b c = true → exportLe a c = true := by
  intro a b c hab hbc
  simp only [exportLe, Bool.or_eq_true, Bool.and_eq_true,
    decide_eq_true_eq] at hab hbc ⊢
  rcases hab with h1 | ⟨h1, h2⟩ <;> rcases hbc with h3 | ⟨h3, h4⟩
  · exact Or.inl (lt_trans h1 h3)
  · exact Or.inl (h3 ▸ h1)
  · exact Or.inl (h1 ▸ h3)
  · exact Or.inr ⟨h1.trans h3, le_trans h2 h4⟩

theorem exportLe_total : ∀ a b : ExportRow,
    (exportLe a b || exportLe b a) = true := by
  intro a b
  simp only [exportLe, Bool.or_eq_true, Bool.and_eq_true,
    decide_eq_true_eq]
  rcases lt_trichotomy a.participant_id b.participant_id with h | h | h
  · exact Or.inl (Or.inl h)
  · rcases Nat.le_total a.submitted_at b.submitted_at with h' | h'
    · exact Or.inl (Or.inr ⟨h, h'⟩)
    · exact Or.inr (Or.inr ⟨h.symm, h'⟩)
  · exact Or.inr (Or.inl h)

/-- C8: the export rows are, up to the `ORDER BY` reordering, exactly one
row per annotation that has both a matching assignment pair and a matching
slice — annotations without either are silently excluded — the output is
sorted by participant id then submission time, and the CSV header is the
fixed eight-column line. -/
theorem c8_export_correctness (ann : List AnnRow)
    (ass : List (String × String)) (sl : List SliceRec)
    (hass : ass.Nodup) (hsl : (sl.map (fun s => s.id)).Nodup) :
    (exportJoined ann ass sl).Perm
      (ann.filterMap (fun a =>
        if (a.participant_id, a.slice_id) ∈ ass then
          (sl.find? (fun s => s.id = a.slice_id)).map (mkExportRow a)
        else none)) ∧
    (exportJoined ann ass sl).Pairwise
      (fun r₁ r₂ => exportLe r₁ r₂ = true) ∧
    exportCsvHeader =
      "participant_id,slice_id,conversation_id,interaction_types,curiosity_types,routing_validation,annotation_time_seconds,submitted_at" := by
  refine ⟨?_, ?_, ?_⟩
  · unfold exportJoined
    rw [← joinRows_eq_filterMap ass sl hass hsl ann]
    exact List.mergeSort_perm _ _
  · unfold exportJoined
    exact List.sorted_mergeSort exportLe_trans exportLe_total _
  · rfl

/-- C8 witness: one annotation, its matching assignment and slice — the
export is the single joined row, sorted, under the fixed header. -/
theorem c8_export_correctness_witness :
    (exportJoined [⟨1, "p1", "s1", "it", "ct", "rv", 0, 5⟩] [("p1", "s1")]
        [⟨"s1", "c1", none, none, none⟩]).Perm
      (([⟨1, "p1", "s1", "it", "ct", "rv", 0, 5⟩] : List AnnRow).filterMap
        (fun a =>
          if (a.participant_id, a.slice_id) ∈
              ([("p1", "s1")] : List (String × String)) then
            (([⟨"s1", "c1", none, none, none⟩] : List SliceRec).find?
              (fun s => s.id = a.slice_id)).map (mkExportRow a)
          else none)) ∧
    (exportJoined [⟨1, "p1", "s1", "it", "ct", "rv", 0, 5⟩] [("p1", "s1")]
        [⟨"s1", "c1", none, none, none⟩]).Pairwise
      (fun r₁ r₂ => exportLe r₁ r₂ = true) ∧
    exportCsvHeader =
      "participant_id,slice_id,conversation_id,interaction_types,curiosity_types,routing_validation,annotation_time_seconds,submitted_at" :=
  c8_export_correctness [⟨1, "p1", "s1", "it", "ct", "rv", 0, 5⟩]
    [("p1", "s1")] [⟨"s1", "c1", none, none, none⟩] (by decide) (by decide)

end InteractionAssess
